import Mathlib

/-!
Verification of the TensorFlow backend adapter of the TensorNetwork library
(`tensornetwork/backends/tensorflow/tensorflow_backend.py`).

The adapter is glue code: each method validates shapes/ranks and forwards to
the underlying library.  The shallow embedding below mirrors that structure:

* `Tensor` models a tensor by its shape, its dtype tag and an entry function.
  The claims under verification are structural (shapes, ranks, dtype defaults,
  which error is raised, how broadcasting aligns axes), not claims about
  floating-point arithmetic, so the element domain is modelled by the exact
  type `Int`.
* Operations that this file merely forwards to the library after validating
  (`inv`, `expm`, `slice`) return a `LibCall` marker recording the delegated
  call; operations whose library semantics the claims depend on
  (multiplication with broadcasting, `reshape`, `eye`, `ones`, `zeros`) are
  modelled by their well-known semantics.
* Random generation is modelled as explicit state passing on `RandomState`:
  `set_seed` reconfigures the state from a seed, and every primitive draw is
  a symbolic `Draw` value recording the generator state, a per-state counter
  (distinguishing successive draws), the shape, the bounds and the dtype.
* Python `raise ValueError` / `raise NotImplementedError` become
  `Except BackendError` results.
-/

namespace TensorFlowBackend

/-- Dtype tags of the underlying library that the adapter mentions. -/
inductive DType where
  | float32
  | float64
  | complex64
  | complex128
  | int32
  | int64
deriving DecidableEq

/-- Mirrors `dtype.real_dtype` of the underlying library. -/
def DType.real_dtype : DType → DType
  | .complex64 => .float32
  | .complex128 => .float64
  | d => d

/-- Whether a dtype is one of the two complex dtypes tested by the source
(`dtype is tf.complex128 or dtype is tf.complex64`). -/
def DType.isComplex : DType → Bool
  | .complex64 => true
  | .complex128 => true
  | _ => false

/-- A tensor: shape, dtype tag, and an entry function indexed by index lists.
Entries at out-of-range indices are irrelevant; theorems about entries are
stated at valid indices only. -/
structure Tensor where
  shape : List Nat
  dtype : DType
  entry : List Nat → Int

/-- The two kinds of exceptions the adapter raises. -/
inductive BackendError where
  | valueError (msg : String)
  | notImplementedError (msg : String)
deriving DecidableEq

/-- A delegated library call, for methods whose own work is only validation. -/
inductive LibCall where
  | linalg_inv (matrix : Tensor)
  | linalg_expm (matrix : Tensor)
  | tf_slice (tensor : Tensor) (start_indices slice_sizes : List Int)

/-- The backend's `self.name` attribute. -/
def name : String := "tensorflow"

/-! ## Tensor constructors (`tf.eye`, `tf.ones`, `tf.zeros`) -/

/-- Mirrors `tf.eye(num_rows, num_columns, dtype)`: when `num_columns` is
`None` the matrix is square; entries are 1 on the main diagonal, 0 off it. -/
def tf_eye (num_rows : Nat) (num_columns : Option Nat) (dtype : DType) : Tensor :=
  ⟨[num_rows, num_columns.getD num_rows], dtype,
    fun idx => if idx.getD 0 0 = idx.getD 1 0 then 1 else 0⟩

/-- Mirrors `tf.ones(shape, dtype)`. -/
def tf_ones (shape : List Nat) (dtype : DType) : Tensor :=
  ⟨shape, dtype, fun _ => 1⟩

/-- Mirrors `tf.zeros(shape, dtype)`. -/
def tf_zeros (shape : List Nat) (dtype : DType) : Tensor :=
  ⟨shape, dtype, fun _ => 0⟩

/-- `TensorFlowBackend.eye`: `dtype = dtype if dtype is not None else tf.float64`,
then `tf.eye(num_rows=N, num_columns=M, dtype=dtype)`. -/
def eye (N : Nat) (dtype : Option DType) (M : Option Nat) : Tensor :=
  tf_eye N M (dtype.getD DType.float64)

/-- `TensorFlowBackend.ones`: default dtype `tf.float64`, then `tf.ones`. -/
def ones (shape : List Nat) (dtype : Option DType) : Tensor :=
  tf_ones shape (dtype.getD DType.float64)

/-- `TensorFlowBackend.zeros`: default dtype `tf.float64`, then `tf.zeros`. -/
def zeros (shape : List Nat) (dtype : Option DType) : Tensor :=
  tf_zeros shape (dtype.getD DType.float64)

/-! ## Validation-then-delegation methods (`slice`, `inv`, `expm`) -/

/-- The message of `slice`; the source joins the two adjacent string literals
`"Lengths of start_indices and slice_sizes must be"` and `"identical."`,
yielding the missing space reproduced here. -/
def sliceMsg : String :=
  "Lengths of start_indices and slice_sizes must be" ++ "identical."

/-- `TensorFlowBackend.slice`: raises `ValueError` when the index lists have
different lengths, otherwise forwards to `tf.slice`. -/
def slice (tensor : Tensor) (start_indices slice_sizes : List Int) :
    Except BackendError LibCall :=
  if start_indices.length ≠ slice_sizes.length then
    .error (.valueError sliceMsg)
  else
    .ok (.tf_slice tensor start_indices slice_sizes)

/-- The message of `inv` (with the shape formatted in). -/
def invMsg (shape : List Nat) : String :=
  "input to tensorflow backend method `inv` has shape " ++ toString shape ++
    ". Only matrices are supported."

/-- `TensorFlowBackend.inv`: raises `ValueError` when `len(matrix.shape) > 2`,
otherwise forwards to `tf.linalg.inv`. -/
def inv (matrix : Tensor) : Except BackendError LibCall :=
  if matrix.shape.length > 2 then
    .error (.valueError (invMsg matrix.shape))
  else
    .ok (.linalg_inv matrix)

/-- The first message of `expm` (rank check). -/
def expmRankMsg (shape : List Nat) : String :=
  "input to tensorflow backend method `expm` has shape " ++ toString shape ++
    ". Only matrices are supported."

/-- The second message of `expm` (squareness check); the source joins
`"... only supports"` and `"N*N matrix, ..."` without a space. -/
def expmSquareMsg (x y : Nat) : String :=
  "input to tensorflow backend method `expm` only supports" ++
    "N*N matrix, " ++ toString x ++ "*" ++ toString y ++ " matrix is given"

/-- `TensorFlowBackend.expm`: raises `ValueError` when the rank is not 2,
then when `matrix.shape[0] != matrix.shape[1]`, otherwise forwards to
`tf.linalg.expm`. -/
def expm (matrix : Tensor) : Except BackendError LibCall :=
  if matrix.shape.length ≠ 2 then
    .error (.valueError (expmRankMsg matrix.shape))
  else if matrix.shape.getD 0 0 ≠ matrix.shape.getD 1 0 then
    .error (.valueError (expmSquareMsg (matrix.shape.getD 0 0) (matrix.shape.getD 1 0)))
  else
    .ok (.linalg_expm matrix)

/-- A concrete all-zero float64 tensor of a given shape, used to instantiate
theorems at concrete inputs. -/
def sampleTensor (shape : List Nat) : Tensor :=
  ⟨shape, DType.float64, fun _ => 0⟩

/-! ## Random generation (`randn`, `random_uniform`)

The underlying library keeps one process-wide generator.  Its state is
modelled by the seed it was last configured from (`seedState`) together with
a counter distinguishing successive draws from the same configuration. -/

/-- The global random generator state of the underlying library. -/
structure RandomState where
  seedState : Int
  counter : Nat
deriving DecidableEq

/-- Mirrors `tf.random.set_seed(seed)`: reconfigures the global state from
the seed. -/
def set_seed (seed : Int) (_st : RandomState) : RandomState :=
  ⟨seed, 0⟩

/-- A primitive draw from the generator, recorded symbolically: which
distribution, from which generator state, the how-many-th draw from that
state, and the requested shape / bounds / dtype.  Distinct fields mean
independent draws. -/
inductive Draw where
  | normal (seedState : Int) (counter : Nat) (shape : List Nat) (dtype : DType)
  | uniform (seedState : Int) (counter : Nat) (shape : List Nat)
      (minval maxval : ℚ) (dtype : DType)
deriving DecidableEq

/-- Mirrors `tf.random.normal(shape, dtype)`: yields a draw and advances the
global state. -/
def tf_random_normal (shape : List Nat) (dtype : DType) (st : RandomState) :
    Draw × RandomState :=
  (.normal st.seedState st.counter shape dtype, ⟨st.seedState, st.counter + 1⟩)

/-- Mirrors `tf.random.uniform(shape, minval, maxval, dtype)`. -/
def tf_random_uniform (shape : List Nat) (minval maxval : ℚ) (dtype : DType)
    (st : RandomState) : Draw × RandomState :=
  (.uniform st.seedState st.counter shape minval maxval dtype,
    ⟨st.seedState, st.counter + 1⟩)

/-- A value returned by `randn` / `random_uniform`: either a single real draw
or `tf.complex` of two draws (real part first, as evaluated by the source). -/
inductive RTensor where
  | ofDraw (d : Draw)
  | complexOf (re im : Draw)
deriving DecidableEq

/-- Python truthiness of the `seed` argument: `if seed:` is false both for
`None` and for `0`. -/
def pyTruthy : Option Int → Bool
  | none => false
  | some n => n != 0

/-- `TensorFlowBackend.randn`: `if seed: tf.random.set_seed(seed)`, default
dtype `float64`; for complex dtypes, `tf.complex` of two `tf.random.normal`
draws in the real dtype; otherwise one draw. -/
def randn (shape : List Nat) (dtype : Option DType) (seed : Option Int)
    (st0 : RandomState) : RTensor × RandomState :=
  let st1 := if pyTruthy seed then set_seed (seed.getD 0) st0 else st0
  let dt := dtype.getD DType.float64
  if dt = DType.complex128 ∨ dt = DType.complex64 then
    let r1 := tf_random_normal shape dt.real_dtype st1
    let r2 := tf_random_normal shape dt.real_dtype r1.2
    (.complexOf r1.1 r2.1, r2.2)
  else
    let r := tf_random_normal shape dt st1
    (.ofDraw r.1, r.2)

/-- `TensorFlowBackend.random_uniform`: like `randn` with bounds, except that
the non-complex branch executes `tf.random.set_seed(10)` before its single
draw — reproducing the source's hard-coded reseeding. -/
def random_uniform (shape : List Nat) (boundaries : ℚ × ℚ) (dtype : Option DType)
    (seed : Option Int) (st0 : RandomState) : RTensor × RandomState :=
  let st1 := if pyTruthy seed then set_seed (seed.getD 0) st0 else st0
  let dt := dtype.getD DType.float64
  if dt = DType.complex128 ∨ dt = DType.complex64 then
    let r1 := tf_random_uniform shape boundaries.1 boundaries.2 dt.real_dtype st1
    let r2 := tf_random_uniform shape boundaries.1 boundaries.2 dt.real_dtype r1.2
    (.complexOf r1.1 r2.1, r2.2)
  else
    let st2 := set_seed 10 st1
    let r := tf_random_uniform shape boundaries.1 boundaries.2 dt st2
    (.ofDraw r.1, r.2)

/-! ## Unimplemented operations (`eigs`, `eigsh_lanczos`) -/

/-- The name of the `eigs` operation. -/
def eigsOpName : String := "eigs"

/-- The name of the `eigsh_lanczos` operation. -/
def eigshLanczosOpName : String := "eigsh_lanczos"

/-- The string the source's `eigsh_lanczos` message interpolates in place of
the operation name (note the transposed letters). -/
def eighsTypoName : String := "eighs_lanczos"

/-- The message of `eigs`, `"Backend '{}' has not implemented eigs."` with
`self.name` formatted in. -/
def eigsMsg : String :=
  "Backend \x27" ++ name ++ "\x27 has not implemented eigs."

/-- The message of `eigsh_lanczos`,
`"Backend '{}' has not implemented eighs_lanczos."` with `self.name`
formatted in. -/
def eigshLanczosMsg : String :=
  "Backend \x27" ++ name ++ "\x27 has not implemented eighs_lanczos."

/-- `TensorFlowBackend.eigs`: raises `NotImplementedError` unconditionally.
The argument types are opaque to the method. -/
def eigs {α β γ : Type} (A : α) (initial_state : Option β)
    (num_krylov_vecs : Option Nat) (numeig : Option Nat) (tol : Option ℚ)
    (which : Option String) (maxiter : Option Nat) (dtype : Option DType) :
    Except BackendError (List γ × List γ) :=
  .error (.notImplementedError eigsMsg)

/-- `TensorFlowBackend.eigsh_lanczos`: raises `NotImplementedError`
unconditionally. -/
def eigsh_lanczos {α β γ : Type} (A : α) (initial_state : Option β)
    (num_krylov_vecs : Option Nat) (numeig : Option Nat) (tol : Option ℚ)
    (delta : Option ℚ) (ndiag : Option Nat) (reorthogonalize : Option Bool) :
    Except BackendError (List γ × List γ) :=
  .error (.notImplementedError eigshLanczosMsg)

/-! ## Substring test, used to state that a message names something -/

/-- Whether the first character list is an initial segment of the second. -/
def startsWithL : List Char → List Char → Bool
  | [], _ => true
  | _ :: _, [] => false
  | a :: as, b :: bs => a == b && startsWithL as bs

/-- Whether the pattern occurs contiguously inside the character list. -/
def hasSubL (pat : List Char) : List Char → Bool
  | [] => pat.isEmpty
  | b :: bs => startsWithL pat (b :: bs) || hasSubL pat bs

/-- Whether string `s` contains `pat` as a contiguous substring. -/
def strHas (s pat : String) : Bool :=
  hasSubL pat.toList s.toList

/-! ## Element-wise multiplication with broadcasting

`tensor1 * tensor2` on library tensors follows the standard broadcasting
rules: shapes are aligned from the right; paired dimensions must be equal or
one of them 1; a 1-dimension is stretched by reading its only entry. -/

/-- Combine two reversed (right-aligned) shapes under the broadcasting rules. -/
def broadcastShapeRev : List Nat → List Nat → Option (List Nat)
  | [], ys => some ys
  | x :: xs, [] => some (x :: xs)
  | x :: xs, y :: ys =>
    match broadcastShapeRev xs ys with
    | none => none
    | some rest =>
      if x = y then some (x :: rest)
      else if x = 1 then some (y :: rest)
      else if y = 1 then some (x :: rest)
      else none

/-- The broadcast shape of two shapes, or `none` when incompatible. -/
def broadcastShape (s1 s2 : List Nat) : Option (List Nat) :=
  (broadcastShapeRev s1.reverse s2.reverse).map List.reverse

/-- Map an index into the broadcast result back to an index into an operand of
shape `s`: keep the trailing components and read position 0 along stretched
1-dimensions. -/
def broadcastIndex (s idx : List Nat) : List Nat :=
  (s.zip (idx.drop (idx.length - s.length))).map fun p => if p.1 = 1 then 0 else p.2

/-- Mirrors the library's element-wise `tensor1 * tensor2` with broadcasting;
`none` when the shapes are incompatible (the library raises). -/
def tf_mul (t1 t2 : Tensor) : Option Tensor :=
  match broadcastShape t1.shape t2.shape with
  | none => none
  | some s =>
    some ⟨s, t1.dtype, fun idx =>
      t1.entry (broadcastIndex t1.shape idx) * t2.entry (broadcastIndex t2.shape idx)⟩

/-! ## Reshape (row-major), shape helpers -/

/-- Row-major linearisation of an index w.r.t. a shape. -/
def linearIndex (shape idx : List Nat) : Nat :=
  (shape.zip idx).foldl (fun acc p => acc * p.1 + p.2) 0

/-- Inverse of row-major linearisation. -/
def unflattenIndex : List Nat → Nat → List Nat
  | [], _ => []
  | _ :: ds, v => v / ds.prod :: unflattenIndex ds (v % ds.prod)

/-- Mirrors `tf.reshape`: same elements read in row-major order; `none` when
the element counts disagree (the library raises). -/
def tf_reshape (tensor : Tensor) (shape : List Nat) : Option Tensor :=
  if shape.prod = tensor.shape.prod then
    some ⟨shape, tensor.dtype, fun idx =>
      tensor.entry (unflattenIndex tensor.shape (linearIndex shape idx))⟩
  else none

/-- `TensorFlowBackend.shape_tensor`, at the level of shape lists. -/
def shape_tensor (tensor : Tensor) : List Nat :=
  tensor.shape

/-- `TensorFlowBackend.shape_concat` on shape lists (`tf.concat` on axis -1 of
rank-1 shape tensors is list concatenation). -/
def shape_concat (values : List (List Nat)) : List Nat :=
  values.flatten

/-! ## Broadcast multiplications -/

/-- The message of `broadcast_right_multiplication`. -/
def broadcastRightMsg (shape : List Nat) : String :=
  "only order-1 tensors are allowed for `tensor2`, found `tensor2.shape = " ++
    toString shape ++ "`"

/-- The message of `broadcast_left_multiplication`. -/
def broadcastLeftMsg (shape : List Nat) : String :=
  "only order-1 tensors are allowed for `tensor1`, found `tensor1.shape = " ++
    toString shape ++ "`"

/-- `TensorFlowBackend.broadcast_right_multiplication`: requires `tensor2` of
rank 1, then returns `tensor1 * tensor2` (library broadcasting aligns the
vector with the last axis of `tensor1`). -/
def broadcast_right_multiplication (tensor1 tensor2 : Tensor) :
    Except BackendError (Option Tensor) :=
  if tensor2.shape.length ≠ 1 then
    .error (.valueError (broadcastRightMsg tensor2.shape))
  else
    .ok (tf_mul tensor1 tensor2)

/-- `TensorFlowBackend.broadcast_left_multiplication`: requires `tensor1` of
rank 1, reshapes it to `tensor1.shape ++ [1] * (rank tensor2 - 1)` and returns
`tensor2 * reshaped` (the appended singleton axes align the vector with the
first axis of `tensor2`). -/
def broadcast_left_multiplication (tensor1 tensor2 : Tensor) :
    Except BackendError (Option Tensor) :=
  if tensor1.shape.length ≠ 1 then
    .error (.valueError (broadcastLeftMsg tensor1.shape))
  else
    let t1_broadcast_shape :=
      shape_concat [shape_tensor tensor1, List.replicate (tensor2.shape.length - 1) 1]
    .ok ((tf_reshape tensor1 t1_broadcast_shape).bind fun r => tf_mul tensor2 r)

/-- Decides whether `idx` is a valid (in-range, right-length) index into a
tensor of shape `shape`. -/
def validIndex : List Nat → List Nat → Bool
  | [], [] => true
  | d :: ds, i :: is => decide (i < d) && validIndex ds is
  | _, _ => false

/-! ## Claim C8: default dtype of `eye`, `ones`, `zeros` -/

/-- C8: for every call to `eye`, `ones` or `zeros` with `dtype` unspecified
(`None`) the constructed tensor has dtype `float64`; when a dtype is supplied
the tensor has that dtype. -/
theorem claim_C8 (shape : List Nat) (N : Nat) (M : Option Nat) (d : DType) :
    (ones shape none).dtype = DType.float64
    ∧ (zeros shape none).dtype = DType.float64
    ∧ (eye N none M).dtype = DType.float64
    ∧ (ones shape (some d)).dtype = d
    ∧ (zeros shape (some d)).dtype = d
    ∧ (eye N (some d) M).dtype = d :=
  ⟨rfl, rfl, rfl, rfl, rfl, rfl⟩

/-! ## Claim C10: `eye` with `M` omitted is a square identity -/

/-- C10: for every positive `N`, calling `eye` with `M` omitted forwards
`num_columns = None` to the library and yields the square `N × N` identity
matrix (diagonal entries 1, off-diagonal 0); when `M` is supplied the result
has `N` rows and `M` columns. -/
theorem claim_C10 (N m : Nat) (dtype : Option DType) (h : 0 < N) :
    (eye N dtype none).shape = [N, N]
    ∧ (∀ i j, i < N → j < N →
        (eye N dtype none).entry [i, j] = if i = j then 1 else 0)
    ∧ (eye N dtype (some m)).shape = [N, m] :=
  ⟨rfl, fun _ _ _ _ => rfl, rfl⟩

/-- Witness for C10 at `N = 2`, `m = 3`. -/
theorem claim_C10_witness :
    (eye 2 none none).shape = [2, 2]
    ∧ (∀ i j, i < 2 → j < 2 →
        (eye 2 none none).entry [i, j] = if i = j then 1 else 0)
    ∧ (eye 2 none (some 3)).shape = [2, 3] :=
  claim_C10 2 3 none (by decide)

/-! ## Claim C1: which inputs `inv` rejects

The claim says every non-square or rank-greater-than-2 input is rejected with
an ArgumentError.  The source's only check is `len(matrix.shape) > 2`:
a non-square rank-2 matrix passes validation and is forwarded to
`tf.linalg.inv`, refuting the claim.  The amended statement is proved below. -/

/-- C1 counterexample: the non-square 2×3 matrix is not rejected — `inv`
forwards it to the library instead of raising an ArgumentError. -/
theorem claim_C1_counterexample :
    (sampleTensor [2, 3]).shape = [2, 3]
    ∧ inv (sampleTensor [2, 3])
        = Except.ok (LibCall.linalg_inv (sampleTensor [2, 3])) :=
  ⟨rfl, rfl⟩

/-- C1 (amended): `inv` fails with an ArgumentError exactly when the input's
rank exceeds 2; every input of rank at most 2 — square or not — passes the
validation and is forwarded to the library's `inv`. -/
theorem claim_C1 (matrix : Tensor) :
    (matrix.shape.length > 2 →
      inv matrix = Except.error (BackendError.valueError (invMsg matrix.shape)))
    ∧ (matrix.shape.length ≤ 2 →
      inv matrix = Except.ok (LibCall.linalg_inv matrix)) := by
  constructor
  · intro h
    unfold inv
    rw [if_pos h]
  · intro h
    unfold inv
    rw [if_neg (by omega)]

/-- Witness for C1 at a rank-3 tensor (rejected) and a 2×2 matrix (forwarded). -/
theorem claim_C1_witness :
    inv (sampleTensor [2, 2, 2])
      = Except.error (BackendError.valueError (invMsg (sampleTensor [2, 2, 2]).shape))
    ∧ inv (sampleTensor [2, 2])
      = Except.ok (LibCall.linalg_inv (sampleTensor [2, 2])) :=
  ⟨(claim_C1 (sampleTensor [2, 2, 2])).1 (by decide),
    (claim_C1 (sampleTensor [2, 2])).2 (by decide)⟩

/-! ## Claim C4: `slice` length check -/

/-- C4: `slice` fails with an ArgumentError whenever `start_indices` and
`slice_sizes` have unequal lengths; when the lengths are equal the check
passes and the call is forwarded to the library's `slice`. -/
theorem claim_C4 (tensor : Tensor) (start_indices slice_sizes : List Int) :
    (start_indices.length ≠ slice_sizes.length →
      slice tensor start_indices slice_sizes
        = Except.error (BackendError.valueError sliceMsg))
    ∧ (start_indices.length = slice_sizes.length →
      slice tensor start_indices slice_sizes
        = Except.ok (LibCall.tf_slice tensor start_indices slice_sizes)) := by
  constructor
  · intro h
    unfold slice
    rw [if_pos h]
  · intro h
    unfold slice
    rw [if_neg (by omega)]

/-- Witness for C4 at mismatched lengths 1 ≠ 2 and matched lengths 1 = 1. -/
theorem claim_C4_witness :
    slice (sampleTensor [4]) [0] [1, 1]
      = Except.error (BackendError.valueError sliceMsg)
    ∧ slice (sampleTensor [4]) [1] [2]
      = Except.ok (LibCall.tf_slice (sampleTensor [4]) [1] [2]) :=
  ⟨(claim_C4 (sampleTensor [4]) [0] [1, 1]).1 (by decide),
    (claim_C4 (sampleTensor [4]) [1] [2]).2 rfl⟩

/-! ## Claim C5: `expm` rank and squareness checks -/

/-- C5: `expm` fails with an ArgumentError when the rank is not 2 or the two
dimensions differ; for every square rank-2 matrix both checks pass and the
call is forwarded to the library's `expm`. -/
theorem claim_C5 (matrix : Tensor) :
    (matrix.shape.length ≠ 2 →
      expm matrix = Except.error (BackendError.valueError (expmRankMsg matrix.shape)))
    ∧ (∀ a b, matrix.shape = [a, b] → a ≠ b →
      expm matrix = Except.error (BackendError.valueError (expmSquareMsg a b)))
    ∧ (∀ a, matrix.shape = [a, a] →
      expm matrix = Except.ok (LibCall.linalg_expm matrix)) := by
  refine ⟨fun h => ?_, fun a b hab hne => ?_, fun a ha => ?_⟩
  · unfold expm
    rw [if_pos h]
  · unfold expm
    rw [hab]
    rw [if_neg (by simp)]
    rw [if_pos (by simpa [List.getD] using hne)]
    simp [List.getD]
  · unfold expm
    rw [ha]
    rw [if_neg (by simp), if_neg (by simp)]

/-- Witness for C5 at a rank-3 tensor, a 2×3 matrix and a 2×2 matrix. -/
theorem claim_C5_witness :
    expm (sampleTensor [2, 2, 2])
      = Except.error (BackendError.valueError (expmRankMsg (sampleTensor [2, 2, 2]).shape))
    ∧ expm (sampleTensor [2, 3])
      = Except.error (BackendError.valueError (expmSquareMsg 2 3))
    ∧ expm (sampleTensor [2, 2])
      = Except.ok (LibCall.linalg_expm (sampleTensor [2, 2])) :=
  ⟨(claim_C5 (sampleTensor [2, 2, 2])).1 (by decide),
    (claim_C5 (sampleTensor [2, 3])).2.1 2 3 rfl (by decide),
    (claim_C5 (sampleTensor [2, 2])).2.2 2 rfl⟩

/-! ## Claim C3: `eigs` and `eigsh_lanczos` always raise

Both raise `NotImplementedError` naming the backend.  The `eigs` message
names the operation; the `eigsh_lanczos` message interpolates the misspelt
`eighs_lanczos`, so it does not contain the operation's name, refuting the
claim as stated. -/

/-- C3 counterexample: at a concrete argument combination, `eigsh_lanczos`
raises a `NotImplementedError` whose message does not name the operation
`eigsh_lanczos` (it contains the misspelling `eighs_lanczos` instead). -/
theorem claim_C3_counterexample :
    (eigsh_lanczos () (none : Option Unit) none none none none none none
        : Except BackendError (List Unit × List Unit))
      = Except.error (BackendError.notImplementedError eigshLanczosMsg)
    ∧ strHas eigshLanczosMsg eigshLanczosOpName = false
    ∧ strHas eigshLanczosMsg eighsTypoName = true := by
  refine ⟨rfl, by decide, by decide⟩

/-- C3 (amended): for every combination of arguments, `eigs` and
`eigsh_lanczos` fail with a `NotImplementedError` whose message names the
backend (`tensorflow`) and never return a result; the `eigs` message names
the operation `eigs`, while the `eigsh_lanczos` message contains the
misspelling `eighs_lanczos` in place of the operation name. -/
theorem claim_C3 {α β γ : Type} (A1 A2 : α) (is1 is2 : Option β)
    (nkv1 nkv2 ne1 ne2 : Option Nat) (tol1 tol2 delta : Option ℚ)
    (which : Option String) (maxiter ndiag : Option Nat)
    (dtype : Option DType) (reorthogonalize : Option Bool) :
    (eigs A1 is1 nkv1 ne1 tol1 which maxiter dtype
        : Except BackendError (List γ × List γ))
      = Except.error (BackendError.notImplementedError eigsMsg)
    ∧ (eigsh_lanczos A2 is2 nkv2 ne2 tol2 delta ndiag reorthogonalize
        : Except BackendError (List γ × List γ))
      = Except.error (BackendError.notImplementedError eigshLanczosMsg)
    ∧ strHas eigsMsg name = true
    ∧ strHas eigsMsg eigsOpName = true
    ∧ strHas eigshLanczosMsg name = true
    ∧ strHas eigshLanczosMsg eighsTypoName = true :=
  ⟨rfl, rfl, by decide, by decide, by decide, by decide⟩

/-! ## Claim C2: seeded draws are determined by the caller-supplied seed

True for `randn` (both branches) and for the complex branch of
`random_uniform`; refuted by the non-complex branch of `random_uniform`,
which executes `tf.random.set_seed(10)` after the caller's seed has been
applied, so its draw comes from generator state seeded with the hard-coded
10.  The source's own complex branch and `randn` show the intent, which the
spec also records; this is a defect of the code. -/

/-- C2 (code bug, evaluated at the failing input): with caller seed 42,
`randn` and the complex branch of `random_uniform` draw from generator state
seeded with 42, but the non-complex branch of `random_uniform` draws from
state seeded with the hard-coded 10 ≠ 42. -/
theorem claim_C2_bug :
    (randn [2] (some DType.float64) (some 42) ⟨0, 0⟩).1
      = RTensor.ofDraw (Draw.normal 42 0 [2] DType.float64)
    ∧ (random_uniform [2] (0, 1) (some DType.complex128) (some 42) ⟨0, 0⟩).1
      = RTensor.complexOf (Draw.uniform 42 0 [2] 0 1 DType.float64)
          (Draw.uniform 42 1 [2] 0 1 DType.float64)
    ∧ (random_uniform [2] (0, 1) (some DType.float64) (some 42) ⟨0, 0⟩).1
      = RTensor.ofDraw (Draw.uniform 10 0 [2] 0 1 DType.float64)
    ∧ (10 : Int) ≠ 42 :=
  ⟨rfl, rfl, rfl, by decide⟩

/-! ## Claim C9: seed 0 is treated as no seed -/

/-- C9: `randn` and `random_uniform` test the seed for truthiness, so a call
with seed 0 behaves exactly like a call with no seed — the caller-seed branch
is not taken; in particular `randn` never changes which seed the generator
state derives from. -/
theorem claim_C9 (shape : List Nat) (dtype : Option DType) (st : RandomState)
    (boundaries : ℚ × ℚ) :
    randn shape dtype (some 0) st = randn shape dtype none st
    ∧ random_uniform shape boundaries dtype (some 0) st
        = random_uniform shape boundaries dtype none st
    ∧ ((randn shape dtype (some 0) st).2).seedState = st.seedState := by
  refine ⟨rfl, rfl, ?_⟩
  rcases dtype with _ | d
  · rfl
  · cases d <;> rfl

/-! ## Claim C7: complex dtypes combine two independent draws -/

/-- C7: for every shape, a complex-dtype call to `randn` or `random_uniform`
returns `tf.complex` of two draws of the requested shape in the corresponding
real dtype — drawn at successive positions of the generator stream, hence
distinct, independent draws — while a non-complex call returns one draw of
the requested shape and dtype. -/
theorem claim_C7 (shape : List Nat) (seed : Option Int) (st st2 : RandomState)
    (b : ℚ × ℚ) (cdt rdt : DType) (hc : cdt.isComplex = true)
    (hr : rdt.isComplex = false) :
    (∃ s c, (randn shape (some cdt) seed st).1
        = RTensor.complexOf (Draw.normal s c shape cdt.real_dtype)
            (Draw.normal s (c + 1) shape cdt.real_dtype)
        ∧ Draw.normal s c shape cdt.real_dtype
            ≠ Draw.normal s (c + 1) shape cdt.real_dtype)
    ∧ (∃ s c, (random_uniform shape b (some cdt) seed st).1
        = RTensor.complexOf (Draw.uniform s c shape b.1 b.2 cdt.real_dtype)
            (Draw.uniform s (c + 1) shape b.1 b.2 cdt.real_dtype)
        ∧ Draw.uniform s c shape b.1 b.2 cdt.real_dtype
            ≠ Draw.uniform s (c + 1) shape b.1 b.2 cdt.real_dtype)
    ∧ (∃ s c, (randn shape (some rdt) seed st2).1
        = RTensor.ofDraw (Draw.normal s c shape rdt))
    ∧ (∃ s c, (random_uniform shape b (some rdt) seed st2).1
        = RTensor.ofDraw (Draw.uniform s c shape b.1 b.2 rdt)) := by
  cases cdt <;> cases rdt <;>
    first
      | exact absurd hc (by decide)
      | exact absurd hr (by decide)
      | exact ⟨⟨_, _, rfl, by simp⟩, ⟨_, _, rfl, by simp⟩, ⟨_, _, rfl⟩, ⟨_, _, rfl⟩⟩

/-- Witness for C7 at shape `[2, 3]`, seed 1, dtypes `complex128` and
`float64`. -/
theorem claim_C7_witness :
    (∃ s c, (randn [2, 3] (some DType.complex128) (some 1) ⟨0, 0⟩).1
        = RTensor.complexOf (Draw.normal s c [2, 3] DType.float64)
            (Draw.normal s (c + 1) [2, 3] DType.float64)
        ∧ Draw.normal s c [2, 3] DType.float64
            ≠ Draw.normal s (c + 1) [2, 3] DType.float64)
    ∧ (∃ s c, (random_uniform [2, 3] (0, 1) (some DType.complex128) (some 1) ⟨0, 0⟩).1
        = RTensor.complexOf (Draw.uniform s c [2, 3] 0 1 DType.float64)
            (Draw.uniform s (c + 1) [2, 3] 0 1 DType.float64)
        ∧ Draw.uniform s c [2, 3] 0 1 DType.float64
            ≠ Draw.uniform s (c + 1) [2, 3] 0 1 DType.float64)
    ∧ (∃ s c, (randn [2, 3] (some DType.float64) (some 1) ⟨0, 0⟩).1
        = RTensor.ofDraw (Draw.normal s c [2, 3] DType.float64))
    ∧ (∃ s c, (random_uniform [2, 3] (0, 1) (some DType.float64) (some 1) ⟨0, 0⟩).1
        = RTensor.ofDraw (Draw.uniform s c [2, 3] 0 1 DType.float64)) :=
  claim_C7 [2, 3] (some 1) ⟨0, 0⟩ ⟨0, 0⟩ (0, 1) DType.complex128 DType.float64 rfl rfl

/-! ## Broadcasting lemmas, used for claim C6 -/

/-- A valid index has the same length as the shape. -/
theorem validIndex_length : ∀ (s idx : List Nat), validIndex s idx = true →
    idx.length = s.length := by
  intro s
  induction s with
  | nil =>
    intro idx h
    cases idx with
    | nil => rfl
    | cons a t => exact Bool.noConfusion h
  | cons d ds ih =>
    intro idx h
    cases idx with
    | nil => exact Bool.noConfusion h
    | cons i is =>
      simp only [validIndex, Bool.and_eq_true] at h
      simp [ih is h.2]

/-- Clamping along 1-dimensions is the identity on valid indices. -/
theorem zip_clamp_eq : ∀ (s idx : List Nat), validIndex s idx = true →
    (s.zip idx).map (fun p => if p.1 = 1 then 0 else p.2) = idx := by
  intro s
  induction s with
  | nil =>
    intro idx h
    cases idx with
    | nil => rfl
    | cons a t => exact Bool.noConfusion h
  | cons d ds ih =>
    intro idx h
    cases idx with
    | nil => exact Bool.noConfusion h
    | cons i is =>
      simp only [validIndex, Bool.and_eq_true, decide_eq_true_eq] at h
      obtain ⟨hi, hrest⟩ := h
      simp only [List.zip_cons_cons, List.map_cons, ih is hrest]
      congr 1
      by_cases hd : d = 1
      · subst hd
        have h0 : i = 0 := by omega
        subst h0
        simp
      · simp [hd]

/-- On a valid index of the operand's own shape, `broadcastIndex` is the
identity. -/
theorem broadcastIndex_self (s idx : List Nat) (h : validIndex s idx = true) :
    broadcastIndex s idx = idx := by
  unfold broadcastIndex
  rw [validIndex_length s idx h, Nat.sub_self, List.drop_zero]
  exact zip_clamp_eq s idx h

/-- Broadcasting against an exhausted shape keeps the other shape. -/
theorem broadcastShapeRev_nil_right : ∀ xs : List Nat,
    broadcastShapeRev xs [] = some xs
  | [] => rfl
  | _ :: _ => rfl

/-- Broadcasting a shape whose last dimension is `n` against the vector shape
`[n]` succeeds and keeps the shape. -/
theorem broadcastShape_vec_right (s : List Nat) (n : Nat)
    (h : s.getLast? = some n) : broadcastShape s [n] = some s := by
  have hrev : s.reverse.head? = some n := by
    rw [List.head?_reverse]
    exact h
  obtain ⟨t, ht⟩ : ∃ t, s.reverse = n :: t := by
    cases hsr : s.reverse with
    | nil => rw [hsr] at hrev; exact Option.noConfusion hrev
    | cons a t =>
      rw [hsr] at hrev
      simp only [List.head?_cons, Option.some.injEq] at hrev
      exact ⟨t, by rw [hrev]⟩
  have hs : s = (n :: t).reverse := by rw [← ht, List.reverse_reverse]
  have hb : broadcastShapeRev (n :: t) [n] = some (n :: t) := by
    simp [broadcastShapeRev, broadcastShapeRev_nil_right]
  unfold broadcastShape
  rw [ht]
  show (broadcastShapeRev (n :: t) [n]).map List.reverse = some s
  rw [hb, hs]
  rfl

/-- Dropping all but the last element of a nonempty list. -/
theorem drop_length_sub_one : ∀ (idx : List Nat), idx ≠ [] →
    idx.drop (idx.length - 1) = [idx.getLast?.getD 0]
  | [], h => absurd rfl h
  | [_], _ => rfl
  | a :: b :: t, _ => by
    have ih := drop_length_sub_one (b :: t) (by simp)
    rw [List.getLast?_cons_cons]
    have h1 : (a :: b :: t).length - 1 = t.length + 1 := by simp
    rw [h1, List.drop_succ_cons]
    have h2 : (b :: t).length - 1 = t.length := by simp
    rw [h2] at ih
    exact ih

/-- The last component of a valid index is below the last dimension. -/
theorem validIndex_last_lt : ∀ (s idx : List Nat) (n : Nat),
    s.getLast? = some n → validIndex s idx = true →
    idx.getLast?.getD 0 < n
  | [], _, _, hs, _ => Option.noConfusion hs
  | [d], idx, n, hs, h => by
    cases idx with
    | nil => exact Bool.noConfusion h
    | cons i is =>
      cases is with
      | nil =>
        simp only [validIndex, Bool.and_eq_true, decide_eq_true_eq] at h
        simp only [List.getLast?_singleton, Option.some.injEq] at hs
        subst hs
        simpa using h.1
      | cons j js =>
        have hl := validIndex_length [d] (i :: j :: js) h
        simp at hl
  | d :: d2 :: ds, idx, n, hs, h => by
    cases idx with
    | nil => exact Bool.noConfusion h
    | cons i is =>
      simp only [validIndex, Bool.and_eq_true] at h
      rw [List.getLast?_cons_cons] at hs
      have hrec := validIndex_last_lt (d2 :: ds) is n hs h.2
      cases is with
      | nil => exact Bool.noConfusion h.2
      | cons j js =>
        rw [List.getLast?_cons_cons]
        exact hrec

/-- On a valid index for a shape ending in `n`, mapping through the vector
shape `[n]` picks the last index component. -/
theorem broadcastIndex_vec (s idx : List Nat) (n : Nat)
    (hs : s.getLast? = some n) (h : validIndex s idx = true) :
    broadcastIndex [n] idx = [idx.getLast?.getD 0] := by
  have hne : idx ≠ [] := by
    intro he
    subst he
    cases s with
    | nil => exact Option.noConfusion hs
    | cons d ds => exact Bool.noConfusion h
  unfold broadcastIndex
  simp only [List.length_cons, List.length_nil, Nat.zero_add]
  rw [drop_length_sub_one idx hne]
  simp only [List.zip_cons_cons, List.zip_nil_right, List.map_cons, List.map_nil]
  by_cases hn : n = 1
  · have hlt := validIndex_last_lt s idx n hs h
    rw [hn] at hlt
    have h0 : idx.getLast?.getD 0 = 0 := by omega
    simp [hn, h0]
  · simp [hn]

/-- Broadcasting `zs ++ [n]` against ones-padded `[n]` (reversed shapes of the
left-multiplication case) keeps `zs ++ [n]`. -/
theorem broadcastShapeRev_append_ones : ∀ (zs : List Nat) (n : Nat),
    broadcastShapeRev (zs ++ [n]) (List.replicate zs.length 1 ++ [n])
      = some (zs ++ [n])
  | [], n => by
    simp only [List.nil_append, List.length_nil, List.replicate_zero]
    simp [broadcastShapeRev]
  | z :: zt, n => by
    have ih := broadcastShapeRev_append_ones zt n
    simp only [List.cons_append, List.length_cons, List.replicate_succ]
    unfold broadcastShapeRev
    rw [ih]
    by_cases hz : z = 1 <;> simp [hz]

/-- The broadcast shape of `n :: rest` with `n :: [1, ..., 1]` is `n :: rest`. -/
theorem broadcastShape_left_ones (n : Nat) (rest : List Nat) :
    broadcastShape (n :: rest) (n :: List.replicate rest.length 1)
      = some (n :: rest) := by
  unfold broadcastShape
  have h1 : (n :: rest).reverse = rest.reverse ++ [n] := by simp
  have h2 : (n :: List.replicate rest.length 1).reverse
      = List.replicate rest.length 1 ++ [n] := by
    simp [List.reverse_replicate]
  have h9 := broadcastShapeRev_append_ones rest.reverse n
  rw [List.length_reverse] at h9
  rw [h1, h2, h9]
  simp

/-- Clamping a ones-shape maps any index of matching length to all zeros. -/
theorem zip_replicate_one_clamp : ∀ (m : Nat) (is : List Nat), is.length = m →
    ((List.replicate m 1).zip is).map (fun p => if p.1 = 1 then 0 else p.2)
      = List.replicate m 0
  | 0, _, _ => by simp
  | m + 1, [], h => by simp at h
  | m + 1, j :: js, h => by
    simp only [List.replicate_succ, List.zip_cons_cons, List.map_cons]
    rw [zip_replicate_one_clamp m js (by simpa using h)]
    simp

/-- Mapping a valid index through the reshaped-vector shape
`n :: [1, ..., 1]` keeps the head and zeroes the rest. -/
theorem broadcastIndex_head_ones (n : Nat) (rest idx : List Nat)
    (h : validIndex (n :: rest) idx = true) :
    broadcastIndex (n :: List.replicate rest.length 1) idx
      = idx.headD 0 :: List.replicate rest.length 0 := by
  cases idx with
  | nil => exact Bool.noConfusion h
  | cons i is =>
    simp only [validIndex, Bool.and_eq_true, decide_eq_true_eq] at h
    obtain ⟨hi, hrest⟩ := h
    have hlen : is.length = rest.length := validIndex_length rest is hrest
    unfold broadcastIndex
    have hl0 : (i :: is).length
        - (n :: List.replicate rest.length 1).length = 0 := by
      simp [hlen]
    rw [hl0, List.drop_zero]
    simp only [List.zip_cons_cons, List.map_cons]
    rw [zip_replicate_one_clamp rest.length is hlen]
    congr 1
    by_cases hn : n = 1
    · subst hn
      have h0 : i = 0 := by omega
      subst h0
      simp
    · simp [hn]

/-- Row-major folding over a ones/zeros tail is the identity on the
accumulator. -/
theorem foldl_ones_zeros : ∀ (m acc : Nat),
    ((List.replicate m 1).zip (List.replicate m 0)).foldl
      (fun a p => a * p.1 + p.2) acc = acc
  | 0, _ => rfl
  | m + 1, acc => by
    simp only [List.replicate_succ, List.zip_cons_cons, List.foldl_cons]
    rw [show acc * 1 + 0 = acc by omega]
    exact foldl_ones_zeros m acc

/-- The linear position of `i :: [0, ..., 0]` in shape `n :: [1, ..., 1]`
is `i`. -/
theorem linearIndex_ones_zeros (n i m : Nat) :
    linearIndex (n :: List.replicate m 1) (i :: List.replicate m 0) = i := by
  unfold linearIndex
  simp only [List.zip_cons_cons, List.foldl_cons]
  rw [show 0 * n + i = i by omega]
  exact foldl_ones_zeros m i

/-- Unflattening a position into a rank-1 shape. -/
theorem unflattenIndex_single (n i : Nat) : unflattenIndex [n] i = [i] := by
  simp [unflattenIndex]

/-- `tf_mul` evaluated when the broadcast shape is known. -/
theorem tf_mul_eq (a b : Tensor) (s : List Nat)
    (h : broadcastShape a.shape b.shape = some s) :
    tf_mul a b = some ⟨s, a.dtype, fun idx =>
      a.entry (broadcastIndex a.shape idx)
        * b.entry (broadcastIndex b.shape idx)⟩ := by
  unfold tf_mul
  rw [h]

/-- `tf_reshape` evaluated when the element counts agree. -/
theorem tf_reshape_eq (t : Tensor) (s : List Nat) (h : s.prod = t.shape.prod) :
    tf_reshape t s = some ⟨s, t.dtype, fun idx =>
      t.entry (unflattenIndex t.shape (linearIndex s idx))⟩ := by
  unfold tf_reshape
  rw [if_pos h]

/-! ## Claim C6: broadcast multiplications -/

/-- C6: `broadcast_right_multiplication` fails with an ArgumentError unless
`tensor2` has rank 1, and `broadcast_left_multiplication` fails with an
ArgumentError unless `tensor1` has rank 1.  When the broadcast operand is a
vector matching the other tensor's last (right case) or first (left case)
axis, the result multiplies each entry by the vector entry at that axis: in
the right case `r[i...k] = t1[i...k] * t2[k]`, in the left case (via the
reshape with appended singleton dimensions) `r[i...k] = t2[i...k] * t1[i]`. -/
theorem claim_C6 (t1 t2 : Tensor) :
    (t2.shape.length ≠ 1 →
      broadcast_right_multiplication t1 t2
        = Except.error (BackendError.valueError (broadcastRightMsg t2.shape)))
    ∧ (t1.shape.length ≠ 1 →
      broadcast_left_multiplication t1 t2
        = Except.error (BackendError.valueError (broadcastLeftMsg t1.shape)))
    ∧ (∀ n, t2.shape = [n] → t1.shape.getLast? = some n →
      ∃ r, broadcast_right_multiplication t1 t2 = Except.ok (some r)
        ∧ r.shape = t1.shape
        ∧ ∀ idx, validIndex t1.shape idx = true →
            r.entry idx = t1.entry idx * t2.entry [idx.getLast?.getD 0])
    ∧ (∀ n rest, t1.shape = [n] → t2.shape = n :: rest →
      ∃ r, broadcast_left_multiplication t1 t2 = Except.ok (some r)
        ∧ r.shape = t2.shape
        ∧ ∀ idx, validIndex t2.shape idx = true →
            r.entry idx = t2.entry idx * t1.entry [idx.headD 0]) := by
  refine ⟨fun h => ?_, fun h => ?_, fun n h2 hlast => ?_, fun n rest h1 h2 => ?_⟩
  · unfold broadcast_right_multiplication
    rw [if_pos h]
  · unfold broadcast_left_multiplication
    rw [if_pos h]
  · -- right case: t2 is a vector matching t1's last axis
    have hshape : broadcastShape t1.shape t2.shape = some t1.shape := by
      rw [h2]
      exact broadcastShape_vec_right t1.shape n hlast
    have hmul := tf_mul_eq t1 t2 t1.shape hshape
    refine ⟨⟨t1.shape, t1.dtype, fun idx =>
        t1.entry (broadcastIndex t1.shape idx)
          * t2.entry (broadcastIndex t2.shape idx)⟩, ?_, rfl, ?_⟩
    · unfold broadcast_right_multiplication
      rw [if_neg (by rw [h2]; simp), hmul]
    · intro idx hv
      show t1.entry (broadcastIndex t1.shape idx)
          * t2.entry (broadcastIndex t2.shape idx)
          = t1.entry idx * t2.entry [idx.getLast?.getD 0]
      rw [broadcastIndex_self t1.shape idx hv, h2,
        broadcastIndex_vec t1.shape idx n hlast hv]
  · -- left case: t1 is a vector matching t2's first axis
    have hcshape : shape_concat [shape_tensor t1,
        List.replicate (t2.shape.length - 1) 1]
        = n :: List.replicate rest.length 1 := by
      simp [shape_concat, shape_tensor, h1, h2]
    have hresh := tf_reshape_eq t1 (n :: List.replicate rest.length 1)
      (by rw [h1]; simp)
    have hmshape : broadcastShape t2.shape
        ((⟨n :: List.replicate rest.length 1, t1.dtype, fun idx =>
          t1.entry (unflattenIndex t1.shape
            (linearIndex (n :: List.replicate rest.length 1) idx))⟩ : Tensor)).shape
        = some (n :: rest) := by
      show broadcastShape t2.shape (n :: List.replicate rest.length 1)
          = some (n :: rest)
      rw [h2]
      exact broadcastShape_left_ones n rest
    have hmul := tf_mul_eq t2 _ (n :: rest) hmshape
    refine ⟨⟨n :: rest, t2.dtype, fun idx =>
        t2.entry (broadcastIndex t2.shape idx)
          * t1.entry (unflattenIndex t1.shape
              (linearIndex (n :: List.replicate rest.length 1)
                (broadcastIndex (n :: List.replicate rest.length 1) idx)))⟩,
      ?_, h2.symm, ?_⟩
    · unfold broadcast_left_multiplication
      rw [if_neg (by rw [h1]; simp)]
      show Except.ok ((tf_reshape t1 (shape_concat [shape_tensor t1,
          List.replicate (t2.shape.length - 1) 1])).bind fun r => tf_mul t2 r)
          = _
      rw [hcshape, hresh]
      show Except.ok (tf_mul t2 _) = _
      rw [hmul]
    · intro idx hv
      have hv2 : validIndex (n :: rest) idx = true := by
        rw [h2] at hv
        exact hv
      show t2.entry (broadcastIndex t2.shape idx)
          * t1.entry (unflattenIndex t1.shape
              (linearIndex (n :: List.replicate rest.length 1)
                (broadcastIndex (n :: List.replicate rest.length 1) idx)))
          = t2.entry idx * t1.entry [idx.headD 0]
      rw [broadcastIndex_self t2.shape idx hv,
        broadcastIndex_head_ones n rest idx hv2, h1,
        linearIndex_ones_zeros, unflattenIndex_single]

/-- Witness for C6: rejections at rank-2 broadcast operands, and the two
element-wise semantics at a 2×3 matrix with vectors of lengths 3 (right)
and 2 (left). -/
theorem claim_C6_witness :
    broadcast_right_multiplication (sampleTensor [2, 3]) (sampleTensor [2, 2])
      = Except.error (BackendError.valueError (broadcastRightMsg (sampleTensor [2, 2]).shape))
    ∧ broadcast_left_multiplication (sampleTensor [2, 2]) (sampleTensor [2, 3])
      = Except.error (BackendError.valueError (broadcastLeftMsg (sampleTensor [2, 2]).shape))
    ∧ (∃ r, broadcast_right_multiplication (sampleTensor [2, 3]) (sampleTensor [3])
        = Except.ok (some r)
        ∧ r.shape = (sampleTensor [2, 3]).shape
        ∧ ∀ idx, validIndex (sampleTensor [2, 3]).shape idx = true →
            r.entry idx = (sampleTensor [2, 3]).entry idx
              * (sampleTensor [3]).entry [idx.getLast?.getD 0])
    ∧ (∃ r, broadcast_left_multiplication (sampleTensor [2]) (sampleTensor [2, 3])
        = Except.ok (some r)
        ∧ r.shape = (sampleTensor [2, 3]).shape
        ∧ ∀ idx, validIndex (sampleTensor [2, 3]).shape idx = true →
            r.entry idx = (sampleTensor [2, 3]).entry idx
              * (sampleTensor [2]).entry [idx.headD 0]) :=
  ⟨(claim_C6 (sampleTensor [2, 3]) (sampleTensor [2, 2])).1 (by decide),
    (claim_C6 (sampleTensor [2, 2]) (sampleTensor [2, 3])).2.1 (by decide),
    (claim_C6 (sampleTensor [2, 3]) (sampleTensor [3])).2.2.1 3 rfl rfl,
    (claim_C6 (sampleTensor [2]) (sampleTensor [2, 3])).2.2.2 2 [3] rfl rfl⟩

end TensorFlowBackend
